import Mathlib

/-!
Verification of the personal-finance web ledger (`src/unnamed/part_001`).

Shallow embedding conventions:
* JS `number` amounts are modelled as `ℚ` (all amounts in the program are
  finite decimals; a possibly non-finite parse result is modelled by `JsNum`).
* JS `Date` values are modelled by their millisecond time value `ℤ`;
  a nullable date is `Option ℤ`.
* `Math.round` is JS semantics: round half towards `+∞`, i.e. `⌊x + 1/2⌋`.
* JS `Array.prototype.sort` with a consistent comparator is modelled by
  the stable `List.insertionSort` on the comparator's induced relation
  (ES2019 sorts are stable; the claims only use sortedness/permutation).
* Remote calls (Supabase, clock, calendar, date parsing) appear as explicit
  parameters; per the external-interface contract the remote insert returns
  the persisted record, so a successful insert echoes the inserted fields
  with a server-assigned id.
-/

namespace FinanceWeb

/-- JS `Math.round`: rounds half towards positive infinity. -/
def jsRound (q : ℚ) : ℤ := ⌊q + 1 / 2⌋

/-- JS `Math.abs`, written with an executable case split. -/
def jsAbs (q : ℚ) : ℚ := if q < 0 then -q else q

theorem jsAbs_eq_abs (q : ℚ) : jsAbs q = |q| := by
  unfold jsAbs
  rcases lt_or_le q 0 with h | h
  · rw [if_pos h, abs_of_neg h]
  · rw [if_neg (not_lt.mpr h), abs_of_nonneg h]

theorem neg_jsAbs_nonpos (q : ℚ) : -jsAbs q ≤ 0 := by
  rw [jsAbs_eq_abs]
  exact neg_nonpos.mpr (abs_nonneg q)

/-- JS string-or-default (`s || dflt`): `null`/`undefined` and the empty
string are falsy and select the default. -/
def jsOrStr (o : Option String) (dflt : String) : String :=
  match o with
  | none => dflt
  | some s => if s = "" then dflt else s

/-- Char-list version of `String.startsWith` (needle is the second list). -/
def startsWithL : List Char → List Char → Bool
  | _, [] => true
  | [], _ :: _ => false
  | a :: as, b :: bs => a == b && startsWithL as bs

/-- Char-list substring containment: some suffix of the haystack starts
with the needle. -/
def containsL : List Char → List Char → Bool
  | [], n => n.isEmpty
  | h :: t, n => startsWithL (h :: t) n || containsL t n

/-- JS `String.prototype.includes`. -/
def strContains (s sub : String) : Bool := containsL s.data sub.data

/-- The canonical transaction record (interface `Transaction`); mapped rows
additionally carry a `source` tag, kept here as an optional field. -/
structure Transaction where
  id : String
  icon : String
  label : String
  amount : ℚ
  date : Option ℤ
  source : Option String
deriving Repr, DecidableEq

/-- Sort key used by every ledger sort in the program:
`a.date ? new Date(a.date).getTime() : 0` / `new Date(0)`. -/
def sortKey (t : Transaction) : ℤ := t.date.getD 0

/-- Comparator relation of `(a, b) => dateB - dateA`: descending by key. -/
def txGE (a b : Transaction) : Prop := sortKey b ≤ sortKey a

instance : DecidableRel txGE :=
  fun a b => inferInstanceAs (Decidable (sortKey b ≤ sortKey a))

instance : IsTotal Transaction txGE := ⟨fun a b => le_total (sortKey b) (sortKey a)⟩

instance : IsTrans Transaction txGE :=
  ⟨fun _ _ _ hab hbc => le_trans hbc hab⟩

/-- Descending-by-date sort used after every merge/insert. -/
def sortDesc (l : List Transaction) : List Transaction := l.insertionSort txGE

theorem sortDesc_perm (l : List Transaction) : List.Perm (sortDesc l) l :=
  List.perm_insertionSort txGE l

theorem mem_sortDesc {a : Transaction} {l : List Transaction} :
    a ∈ sortDesc l ↔ a ∈ l :=
  (sortDesc_perm l).mem_iff

theorem sorted_sortDesc (l : List Transaction) : List.Sorted txGE (sortDesc l) :=
  List.sorted_insertionSort txGE l

/-- Page size: `ITEMS_PER_PAGE = 25`. -/
def ITEMS_PER_PAGE : ℕ := 25

/-- Raw row of the `expenses` table (`select id,label,amount,icon,transaction_at`);
`id` is the already-stringified primary key (`String(row.id)`). -/
structure ExpenseRow where
  id : String
  label : String
  amount : ℚ
  icon : Option String
  transaction_at : Option ℤ
deriving Repr, DecidableEq

/-- Raw row of the `transactions` table
(`select id,email_subject,description,amount,type,category,received_at`). -/
structure MpRow where
  id : String
  email_subject : Option String
  description : Option String
  amount : ℚ
  type : Option String
  category : Option String
  received_at : Option ℤ
deriving Repr, DecidableEq

/-- Static `categoryMapping` table: category id to `(icon, label)`. -/
def categoryMapping : String → Option (String × String)
  | "utilities-bills" => some ("Zap", "Utilities & Bills")
  | "food-dining" => some ("Coffee", "Food & Dining")
  | "transportation" => some ("Truck", "Transportation")
  | "shopping-clothing" => some ("ShoppingBag", "Shopping & Clothing")
  | "health-wellness" => some ("Heart", "Health & Wellness")
  | "recreation-entertainment" => some ("Film", "Recreation & Entertainment")
  | "financial-obligations" => some ("CreditCard", "Financial Obligations")
  | "savings-investments" => some ("TrendingUp", "Savings & Investments")
  | "miscellaneous-other" => some ("MoreHorizontal", "Miscellaneous / Other")
  | _ => none

/-- Static `transactionTypeLabels` table: type to `(label, shortLabel)`. -/
def transactionTypeLabels : String → Option (String × String)
  | "transfer_sent" => some ("Transferencia enviada", "Enviado")
  | "transfer_received" => some ("Transferencia recibida", "Recibido")
  | "payment_sent" => some ("Pago realizado", "Pago")
  | "payment_received" => some ("Pago recibido", "Cobro")
  | "deposit" => some ("Depósito", "Depósito")
  | "withdrawal" => some ("Retiro", "Retiro")
  | "refund_received" => some ("Reembolso recibido", "Reembolso")
  | "refund_sent" => some ("Reembolso enviado", "Reembolso")
  | _ => none

/-- ASCII-level JS `String.prototype.trim`: drop whitespace from both ends
(written over the character list so that it is kernel-executable). -/
def jsTrim (s : String) : String :=
  String.mk
    (((s.data.dropWhile Char.isWhitespace).reverse.dropWhile
        Char.isWhitespace).reverse)

/-- JS `String.prototype.toLowerCase` (ASCII-level, kernel-executable). -/
def jsToLower (s : String) : String := String.mk (s.data.map Char.toLower)

/-- JS anchored prefix test, kernel-executable. -/
def jsStartsWith (s marker : String) : Bool := startsWithL s.data marker.data

/-- Drop the first `n` characters, kernel-executable. -/
def jsDrop (s : String) (n : ℕ) : String := String.mk (s.data.drop n)

/-- Leading-whitespace strip, the `\s*` tail of the forwarding-marker regex. -/
def dropLeadingWs (s : String) : String :=
  String.mk (s.data.dropWhile Char.isWhitespace)

/-- One case-insensitive anchored strip of `Fwd:`/`Re:`/`FW:` (the regex is
global but `^`-anchored without `m`, so it fires at most once) followed by
the `\s*` it also consumes; no change when no marker matches. -/
def stripForwardMarker (s : String) : String :=
  if jsStartsWith (jsToLower s) "fwd:" then dropLeadingWs (jsDrop s 4)
  else if jsStartsWith (jsToLower s) "re:" then dropLeadingWs (jsDrop s 3)
  else if jsStartsWith (jsToLower s) "fw:" then dropLeadingWs (jsDrop s 3)
  else s

/-- One case-insensitive anchored strip of `Tu ` / `Your `. -/
def stripPossessive (s : String) : String :=
  if jsStartsWith (jsToLower s) "tu " then jsDrop s 3
  else if jsStartsWith (jsToLower s) "your " then jsDrop s 5
  else s

/-- Uppercase the first character (`charAt(0).toUpperCase() + slice(1)`). -/
def capitalizeFirst (s : String) : String :=
  match s.data with
  | [] => ""
  | c :: cs => String.mk (c.toUpper :: cs)

/-- Source `normalizeEmailSubject`: falsy in, `null` out; strip one forwarding
marker, one `Tu `/`Your `, trim, capitalize; empty result becomes `null`. -/
def normalizeEmailSubject (subject : Option String) : Option String :=
  match subject with
  | none => none
  | some s =>
    if s = "" then none
    else
      let clean := jsTrim (stripPossessive (stripForwardMarker s))
      let clean := if clean.length > 0 then capitalizeFirst clean else clean
      if clean = "" then none else some clean

/-- Keyword test on the nullable `type` field (`row.type?.includes(kw)`). -/
def typeHas (row : MpRow) (kw : String) : Bool :=
  match row.type with
  | some t => strContains t kw
  | none => false

/-- Keyword test on the lower-cased nullable subject
(`row.email_subject?.toLowerCase().includes(kw)`). -/
def subjHas (row : MpRow) (kw : String) : Bool :=
  match row.email_subject with
  | some u => strContains (jsToLower u) kw
  | none => false

/-- Category lookup guarded by JS truthiness of `row.category` (the empty
string is falsy and is also absent from the table, so the lookup suffices). -/
def mpCategoryInfo (row : MpRow) : Option (String × String) :=
  match row.category with
  | some c => categoryMapping c
  | none => none

/-- Icon choice for a message-derived row: category table first, then the
keyword direction heuristic, else `DollarSign`. -/
def mapMpIcon (row : MpRow) : String :=
  match mpCategoryInfo row with
  | some ci => ci.1
  | none =>
    if typeHas row "sent" || typeHas row "payment" then "ArrowUpRight"
    else if typeHas row "received" || typeHas row "deposit" then "ArrowDownLeft"
    else "DollarSign"

/-- Label priority: nonempty trimmed description, category label,
transaction-type label, normalized subject, `"Mercado Pago"`. -/
def mapMpLabel (row : MpRow) : String :=
  match row.description with
  | some d =>
    if jsTrim d ≠ "" then jsTrim d
    else mapMpLabelNoDescription row
  | none => mapMpLabelNoDescription row
where
  /-- Label fallbacks below the description step. -/
  mapMpLabelNoDescription (row : MpRow) : String :=
    match mpCategoryInfo row with
    | some ci => ci.2
    | none =>
      match row.type with
      | some t =>
        match transactionTypeLabels t with
        | some tl => tl.1
        | none => mapMpSubjectLabel row
      | none => mapMpSubjectLabel row
  /-- Last fallbacks: truthy subject normalized, else `"Mercado Pago"`. -/
  mapMpSubjectLabel (row : MpRow) : String :=
    match row.email_subject with
    | some s =>
      if s ≠ "" then (normalizeEmailSubject (some s)).getD "Mercado Pago"
      else "Mercado Pago"
    | none => "Mercado Pago"

/-- Outgoing classification: type contains `sent`/`payment`/`withdrawal`, or
the lower-cased subject contains `enviada`/`pagaste`. -/
def mpIsOutgoing (row : MpRow) : Bool :=
  typeHas row "sent" || typeHas row "payment" || typeHas row "withdrawal" ||
    subjHas row "enviada" || subjHas row "pagaste"

/-- Mapping of a message-derived row into the canonical shape; the stored
sign is discarded: outgoing forces `-|amount|`, otherwise `+|amount|`. -/
def mapMp (row : MpRow) : Transaction :=
  { id := "mp_" ++ row.id
    icon := mapMpIcon row
    label := mapMpLabel row
    amount := if mpIsOutgoing row then -jsAbs row.amount else jsAbs row.amount
    date := row.received_at
    source := some "mercadopago" }

/-- Mapping of a manual-expense row: fields copied verbatim, falsy icon
defaults to `ShoppingBag`. -/
def mapExpense (row : ExpenseRow) : Transaction :=
  { id := row.id
    icon := jsOrStr row.icon "ShoppingBag"
    label := row.label
    amount := row.amount
    date := row.transaction_at
    source := some "manual" }

/-- Result of `loadTransactions`: the new ledger and the `hasMore` flag. -/
structure LoadResult where
  transactions : List Transaction
  hasMore : Bool
deriving Repr, DecidableEq

/-- Source `loadTransactions(reset)` after both fetches resolved: map each page,
merge (with id-dedup against the existing ledger when appending), sort
descending by date, and set `hasMore` when either page is full. A failed
message-source fetch surfaces as `mpData = []` (`data` is null on error). -/
def loadTransactions (prev : List Transaction) (reset : Bool)
    (expensesData : List ExpenseRow) (mpData : List MpRow) : LoadResult :=
  let mappedExpenses := expensesData.map mapExpense
  let mappedMp := mpData.map mapMp
  let allTransactions := sortDesc (mappedExpenses ++ mappedMp)
  let hasMore := mappedExpenses.length == ITEMS_PER_PAGE ||
    mappedMp.length == ITEMS_PER_PAGE
  let transactions :=
    if reset then allTransactions
    else
      let existingIds := prev.map (fun t => t.id)
      let newItems := allTransactions.filter (fun t => !(existingIds.contains t.id))
      sortDesc (prev ++ newItems)
  { transactions := transactions, hasMore := hasMore }

/-- Aggregated entry of `getTopMerchants` (interface `MerchantData`). -/
structure MerchantData where
  name : String
  totalAmount : ℚ
  transactionCount : ℕ
  lastTransaction : Option ℤ
deriving Repr, DecidableEq

/-- Merchant grouping key: the trimmed display label. -/
def keyOf (t : Transaction) : String := jsTrim t.label

/-- Fresh zero entry created on first sight of a merchant name. -/
def blankMd (n : String) : MerchantData :=
  { name := n, totalAmount := 0, transactionCount := 0, lastTransaction := none }

/-- Per-transaction update of a merchant entry: add `|amount|`, bump the
count, and keep the most recent date (`!last || (date && date > last)`). -/
def mdUpdate (m : MerchantData) (t : Transaction) : MerchantData :=
  { m with
    totalAmount := m.totalAmount + jsAbs t.amount
    transactionCount := m.transactionCount + 1
    lastTransaction :=
      match m.lastTransaction, t.date with
      | none, d => d
      | some a, none => some a
      | some a, some x => if a < x then some x else some a }

/-- One step of building `merchantMap`: update the existing entry for the
transaction's key, else append a fresh one (JS objects with string keys
enumerate in insertion order). -/
def insertMerchant : List MerchantData → Transaction → List MerchantData
  | [], t => [mdUpdate (blankMd (keyOf t)) t]
  | m :: ms, t =>
    if m.name = keyOf t then mdUpdate m t :: ms else m :: insertMerchant ms t

/-- Comparator relation of `(a, b) => b.totalAmount - a.totalAmount`. -/
def merchGE (a b : MerchantData) : Prop := b.totalAmount ≤ a.totalAmount

instance : DecidableRel merchGE :=
  fun a b => inferInstanceAs (Decidable (b.totalAmount ≤ a.totalAmount))

instance : IsTotal MerchantData merchGE :=
  ⟨fun a b => le_total b.totalAmount a.totalAmount⟩

instance : IsTrans MerchantData merchGE :=
  ⟨fun _ _ _ hab hbc => le_trans hbc hab⟩

/-- Source `getTopMerchants`: group the negative-amount transactions by trimmed
label, sort the entries descending by aggregate amount, keep the top
`limit`. -/
def getTopMerchants (transactions : List Transaction) (limit : ℕ) :
    List MerchantData :=
  (((transactions.filter (fun t => decide (t.amount < 0))).foldl
      insertMerchant []).insertionSort merchGE).take limit

/-- Running maximum of a list of time values from an optional seed. -/
def maxFrom (a : Option ℤ) (l : List ℤ) : Option ℤ :=
  l.foldl
    (fun acc x =>
      match acc with
      | none => some x
      | some v => some (max v x))
    a

/-- Maximum of a list of time values, `none` when empty; reference shape for
the `lastTransaction` aggregate. -/
def maxTime? (l : List ℤ) : Option ℤ := maxFrom none l

/-- Entry of the day-of-week report (interface `DayOfWeekData`). -/
structure DayOfWeekData where
  day : String
  dayIndex : ℕ
  totalAmount : ℚ
  transactionCount : ℕ
  averageAmount : ℚ
deriving Repr, DecidableEq

/-- Fixed weekday slot names, Sunday first. -/
def dayNames : List String := ["Sun", "Mon", "Tue", "Wed", "Thu", "Fri", "Sat"]

/-- One step of filling `dayData`: bucket the transaction under its local
weekday (`dow` models `Date.prototype.getDay`, always `0..6`). -/
def bucketUpd (dow : ℤ → Fin 7) (m : Fin 7 → ℚ × ℕ) (t : Transaction) :
    Fin 7 → ℚ × ℕ :=
  match t.date with
  | some d => fun i => if i = dow d then ((m i).1 + jsAbs t.amount, (m i).2 + 1) else m i
  | none => m

/-- Membership of a transaction in weekday bucket `i`. -/
def inBucket (dow : ℤ → Fin 7) (i : Fin 7) (t : Transaction) : Bool :=
  match t.date with
  | some d => dow d == i
  | none => false

/-- Source `getDayOfWeekPatterns`: bucket dated negative-amount transactions into
the 7 weekday slots; every slot is reported, zero-filled when empty, with
`averageAmount = total / count` guarded by `count > 0`. -/
def getDayOfWeekPatterns (dow : ℤ → Fin 7) (transactions : List Transaction) :
    List DayOfWeekData :=
  let filtered := transactions.filter (fun t => decide (t.amount < 0) && t.date.isSome)
  let dayData := filtered.foldl (bucketUpd dow) (fun _ => (0, 0))
  (List.finRange 7).map (fun i =>
    { day := dayNames.getD i.val ""
      dayIndex := i.val
      totalAmount := (dayData i).1
      transactionCount := (dayData i).2
      averageAmount :=
        if 0 < (dayData i).2 then (dayData i).1 / ((dayData i).2 : ℚ) else 0 })

/-- Calendar bounds of the current and previous month. The source computes
them from `new Date()` with local-calendar arithmetic; they enter the
embedding as explicit parameters since the claims hold for any bounds. -/
structure MonthBounds where
  startCur : ℤ
  endCur : ℤ
  startPrev : ℤ
  endPrev : ℤ
deriving Repr, DecidableEq

/-- Filter of the month-comparison sums: dated, inside the bounds, and a
negative amount. -/
def inMonthExp (lo hi : ℤ) (t : Transaction) : Bool :=
  match t.date with
  | none => false
  | some d => decide (lo ≤ d) && decide (d ≤ hi) && decide (t.amount < 0)

/-- Expense sum of a month window: absolute value of the summed (negative)
amounts. -/
def monthExpenseSum (transactions : List Transaction) (lo hi : ℤ) : ℚ :=
  jsAbs ((transactions.filter (inMonthExp lo hi)).foldl (fun s t => s + t.amount) 0)

/-- Result of `getMonthComparison`. -/
structure MonthComparison where
  current : ℚ
  previous : ℚ
  change : ℚ
  changePercent : ℤ
deriving Repr, DecidableEq

/-- Source `getMonthComparison`: expense-only sums of the two windows,
`change = current - previous`, and the guarded percentage. -/
def getMonthComparison (transactions : List Transaction) (b : MonthBounds) :
    MonthComparison :=
  let current := monthExpenseSum transactions b.startCur b.endCur
  let previous := monthExpenseSum transactions b.startPrev b.endPrev
  { current := current
    previous := previous
    change := current - previous
    changePercent :=
      if 0 < previous then jsRound ((current - previous) / previous * 100) else 0 }

/-- Source `getCategorySpending`: absolute sum of this month's negative amounts
whose icon matches the budget's category icon (`monthTransactions` is the
already month-filtered ledger of the overview). -/
def getCategorySpending (monthTransactions : List Transaction)
    (categoryIcon : String) : ℚ :=
  jsAbs ((monthTransactions.filter
      (fun t => decide (t.amount < 0) && (t.icon == categoryIcon))).foldl
    (fun s t => s + t.amount) 0)

/-- Values derived per budget row by the budget-list rendering. -/
structure BudgetView where
  percentage : ℤ
  isOverBudget : Bool
  overAmount : ℚ
deriving Repr, DecidableEq

/-- Budget row rendering: clamped percentage, unclamped over-budget flag,
and the `spent - limit` amount shown in the warning. -/
def renderBudgetItem (spent limit : ℚ) : BudgetView :=
  { percentage := min (jsRound (spent / limit * 100)) 100
    isOverBudget := decide (limit < spent)
    overAmount := spent - limit }

/-- Entry of the static `categories` catalog. -/
structure Category where
  id : String
  label : String
  value : ℤ
  color : String
  icon : String
deriving Repr, DecidableEq

/-- The static category catalog. -/
def categories : List Category :=
  [⟨"utilities-bills", "Utilities & Bills", 35, "#1f6f4d", "Zap"⟩,
   ⟨"food-dining", "Food & Dining", 19, "#2d9b6e", "Coffee"⟩,
   ⟨"transportation", "Transportation", 10, "#4db88a", "Truck"⟩,
   ⟨"shopping-clothing", "Shopping & Clothing", 0, "#7fcba4", "ShoppingBag"⟩,
   ⟨"health-wellness", "Health & Wellness", 0, "#a8d9be", "Heart"⟩,
   ⟨"recreation-entertainment", "Recreation & Entertainment", 7, "#3a8f5c", "Film"⟩,
   ⟨"financial-obligations", "Financial Obligations", 0, "#165c3e", "CreditCard"⟩,
   ⟨"savings-investments", "Savings & Investments", 0, "#0d4a2f", "TrendingUp"⟩,
   ⟨"miscellaneous-other", "Miscellaneous / Other", 29, "#b5dcc5", "MoreHorizontal"⟩]

/-- Result of `Number(manualAmount)`: a finite rational, or a non-finite
value (`NaN` / `±Infinity`) rejected by the `isFinite` guard. -/
inductive JsNum where
  | fin (q : ℚ)
  | nonFinite
deriving Repr, DecidableEq

/-- Trimmed description with the `|| 'Transaction'` fallback. -/
def trimOrDefault (s : String) : String :=
  if jsTrim s = "" then "Transaction" else jsTrim s

/-- Remote outcome of the single manual insert: success returns the
persisted record's id; failure and the not-configured path both run
`fallbackInsert` with `Date.now()` as the id. -/
inductive ManualRemote where
  | success (assignedId : String)
  | failure (nowMs : ℤ)
  | notConfigured (nowMs : ℤ)

/-- Source `addManualExpense` effect on the ledger: a non-finite parse is rejected
before any mutation; otherwise one transaction with the sign-forced amount
`-|q|` is inserted and the ledger re-sorted. On remote success the inserted
fields come back echoed with the server id (insert returns the persisted
record); on failure or when not configured the local fallback record is
used. -/
def addManualExpense (parsed : JsNum) (desc : String)
    (categoryId : Option String) (mdate : ℤ) (remote : ManualRemote)
    (prev : List Transaction) : List Transaction :=
  match parsed with
  | .nonFinite => prev
  | .fin q =>
    let normalized := -jsAbs q
    let found : Option Category :=
      match categoryId with
      | some cid => categories.find? (fun c => c.id == cid)
      | none => none
    let categoryIcon := jsOrStr (found.map (fun c => c.icon)) "ShoppingBag"
    let newItem : Transaction :=
      match remote with
      | .success rid =>
        { id := rid, icon := categoryIcon, label := trimOrDefault desc
          amount := normalized, date := some mdate, source := none }
      | .failure nowMs =>
        { id := toString nowMs, icon := categoryIcon, label := trimOrDefault desc
          amount := normalized, date := some mdate, source := none }
      | .notConfigured nowMs =>
        { id := toString nowMs, icon := categoryIcon, label := trimOrDefault desc
          amount := normalized, date := some mdate, source := none }
    sortDesc (newItem :: prev)

/-- Staged OCR line item (interface `PendingItem`). -/
structure PendingItem where
  id : String
  description : String
  price : ℚ
  date : Option String
  category : Option String
  categoryIcon : Option String
deriving Repr, DecidableEq

/-- State touched by the OCR commit. -/
structure OcrState where
  transactionsList : List Transaction
  pendingItems : List PendingItem
deriving Repr, DecidableEq

/-- Date of a committed item: noon of the receipt date string when present
(`new Date(item.date + 'T12:00:00')`, modelled by the `parseNoon`
parameter), else `new Date()`. -/
def ocrTxDate (parseNoon : String → ℤ) (nowDate : ℤ) (d : Option String) : ℤ :=
  match d with
  | some s => parseNoon s
  | none => nowDate

/-- Locally built transaction for staged item number `i`: its id is
``${Date.now()}-${item.description}`` (`clk i` models the `Date.now()`
call made while mapping item `i`) and its amount is forced negative. -/
def mkOcrLocalTx (clk : ℕ → ℤ) (parseNoon : String → ℤ) (nowDate : ℤ)
    (i : ℕ) (item : PendingItem) : Transaction :=
  { id := toString (clk i) ++ "-" ++ item.description
    icon := jsOrStr item.categoryIcon "ShoppingBag"
    label := item.description
    amount := -jsAbs item.price
    date := some (ocrTxDate parseNoon nowDate item.date)
    source := none }

/-- Transaction built from the batch-insert response for staged item `i`:
the remote store returns the persisted records, echoing the inserted
label/amount/icon/date under a server-assigned id `idf i`. -/
def mkOcrSavedTx (idf : ℕ → String) (parseNoon : String → ℤ) (nowDate : ℤ)
    (i : ℕ) (item : PendingItem) : Transaction :=
  { id := idf i
    icon := jsOrStr item.categoryIcon "ShoppingBag"
    label := item.description
    amount := -jsAbs item.price
    date := some (ocrTxDate parseNoon nowDate item.date)
    source := none }

/-- Remote outcome of the OCR batch insert. -/
inductive OcrRemote where
  | success (idf : ℕ → String)
  | failure
  | notConfigured

/-- Source `addOcrExpenses`: insert all staged items (remote echo on success, local
fallback records on failure or when not configured), re-sort the ledger,
and clear the staged list unconditionally. -/
def addOcrExpenses (clk : ℕ → ℤ) (parseNoon : String → ℤ) (nowDate : ℤ)
    (remote : OcrRemote) (st : OcrState) : OcrState :=
  let newTransactions :=
    st.pendingItems.enum.map (fun p => mkOcrLocalTx clk parseNoon nowDate p.1 p.2)
  let merged :=
    match remote with
    | .success idf =>
      sortDesc
        ((st.pendingItems.enum.map
            (fun p => mkOcrSavedTx idf parseNoon nowDate p.1 p.2)) ++
          st.transactionsList)
    | .failure => sortDesc (newTransactions ++ st.transactionsList)
    | .notConfigured => sortDesc (newTransactions ++ st.transactionsList)
  { transactionsList := merged, pendingItems := [] }

/-!
Claim theorems. Each claim of the specification gets exactly one theorem;
counterexamples and witnesses instantiate them at concrete inputs.
-/

/-- C3. After every merge (`loadTransactions`, reset or append), the ledger
is sorted non-increasing by timestamp; the comparator reads an undated
transaction as time zero (`txGE a b ↔ b.date.getD 0 ≤ a.date.getD 0`). -/
theorem claim_c3_merge_sorted (prev : List Transaction) (reset : Bool)
    (expensesData : List ExpenseRow) (mpData : List MpRow) :
    (∀ a b : Transaction, txGE a b ↔ (b.date.getD 0 ≤ a.date.getD 0)) ∧
    List.Sorted txGE (loadTransactions prev reset expensesData mpData).transactions := by
  refine ⟨fun a b => Iff.rfl, ?_⟩
  cases reset
  · exact sorted_sortDesc _
  · exact sorted_sortDesc _

/-- Manual row used to build a full page in the C5 instance. -/
def c5ExpenseRow : ExpenseRow :=
  { id := "e", label := "L", amount := -1, icon := none, transaction_at := none }

/-- Message row used to build a partial page in the C5 instance. -/
def c5MpRow : MpRow :=
  { id := "1", email_subject := none, description := some "Cafe", amount := 10
    type := some "payment_sent", category := none, received_at := none }

/-- C5. `hasMore` is true exactly when one of the two sources returned a
full page of `ITEMS_PER_PAGE = 25` mapped records; in particular 25 manual
rows and 10 message rows give `hasMore = true`. -/
theorem claim_c5_has_more :
    (∀ (prev : List Transaction) (reset : Bool) (expensesData : List ExpenseRow)
        (mpData : List MpRow),
      (loadTransactions prev reset expensesData mpData).hasMore = true ↔
        (expensesData.length = ITEMS_PER_PAGE ∨ mpData.length = ITEMS_PER_PAGE)) ∧
    (loadTransactions [] true (List.replicate 25 c5ExpenseRow)
        (List.replicate 10 c5MpRow)).hasMore = true := by
  constructor
  · intro prev reset expensesData mpData
    simp only [loadTransactions, Bool.or_eq_true, beq_iff_eq, List.length_map]
  · rfl

/-- C4. `getMonthComparison` always reports `change = current - previous`;
the percentage is `round(change / previous * 100)` when the previous-month
expense sum is positive and exactly `0` when that sum is `0`. -/
theorem claim_c4_month_comparison (txs : List Transaction) (b : MonthBounds) :
    (getMonthComparison txs b).change =
      (getMonthComparison txs b).current - (getMonthComparison txs b).previous ∧
    (0 < (getMonthComparison txs b).previous →
      (getMonthComparison txs b).changePercent =
        jsRound ((getMonthComparison txs b).change /
          (getMonthComparison txs b).previous * 100)) ∧
    ((getMonthComparison txs b).previous = 0 →
      (getMonthComparison txs b).changePercent = 0) := by
  refine ⟨rfl, ?_, ?_⟩
  · intro h
    simp only [getMonthComparison] at h ⊢
    rw [if_pos h]
  · intro h
    simp only [getMonthComparison] at h ⊢
    rw [h]
    simp

/-- Ledger of the C4 witness: one current-month expense, empty previous
month (spec scenario: previous 0, current 200). -/
def c4Txs : List Transaction :=
  [{ id := "1", icon := "Coffee", label := "Cafe", amount := -200
     date := some 50, source := none }]

/-- Month bounds of the C4 witness. -/
def c4Bounds : MonthBounds :=
  { startCur := 0, endCur := 100, startPrev := -100, endPrev := -1 }

/-- C4 witness: with previous-month sum 0 and current 200 the comparison
reports `change = 200` and `changePercent = 0`. -/
theorem claim_c4_witness :
    (getMonthComparison c4Txs c4Bounds).change = 200 ∧
    (getMonthComparison c4Txs c4Bounds).previous = 0 ∧
    (getMonthComparison c4Txs c4Bounds).changePercent = 0 := by
  have hprev : (getMonthComparison c4Txs c4Bounds).previous = 0 := by
    norm_num [getMonthComparison, monthExpenseSum, c4Txs, c4Bounds, inMonthExp, jsAbs]
  refine ⟨?_, hprev, (claim_c4_month_comparison c4Txs c4Bounds).2.2 hprev⟩
  norm_num [getMonthComparison, monthExpenseSum, c4Txs, c4Bounds, inMonthExp, jsAbs]

/-- C6. For any month ledger and positive limit, the displayed budget
percentage is `min(round(spend / limit * 100), 100)`, the over-budget flag
is the unclamped `spend > limit`, and `spend = limit` displays 100% without
setting the flag. -/
theorem claim_c6_budget (monthTxs : List Transaction) (icon : String)
    (limit : ℚ) (h : 0 < limit) :
    (renderBudgetItem (getCategorySpending monthTxs icon) limit).percentage =
      min (jsRound (getCategorySpending monthTxs icon / limit * 100)) 100 ∧
    ((renderBudgetItem (getCategorySpending monthTxs icon) limit).isOverBudget = true ↔
      limit < getCategorySpending monthTxs icon) ∧
    (getCategorySpending monthTxs icon = limit →
      (renderBudgetItem (getCategorySpending monthTxs icon) limit).isOverBudget = false ∧
      (renderBudgetItem (getCategorySpending monthTxs icon) limit).percentage = 100) := by
  refine ⟨rfl, ⟨of_decide_eq_true, decide_eq_true⟩, ?_⟩
  intro hs
  constructor
  · show decide (limit < getCategorySpending monthTxs icon) = false
    rw [hs]
    exact decide_eq_false (lt_irrefl limit)
  · show min (jsRound (getCategorySpending monthTxs icon / limit * 100)) 100 = 100
    rw [hs, div_self (ne_of_gt h)]
    norm_num [jsRound]

/-- Month ledger of the C6 witness: one 150 expense on the Coffee icon. -/
def c6Txs : List Transaction :=
  [{ id := "1", icon := "Coffee", label := "Latte", amount := -150
     date := some 1, source := none }]

/-- C6 witness: limit 100 and spend 150 display percentage 100, set the
over-budget flag, and show a warning amount of 50. -/
theorem claim_c6_witness :
    getCategorySpending c6Txs "Coffee" = 150 ∧
    (renderBudgetItem (getCategorySpending c6Txs "Coffee") 100).percentage = 100 ∧
    (renderBudgetItem (getCategorySpending c6Txs "Coffee") 100).isOverBudget = true ∧
    (renderBudgetItem (getCategorySpending c6Txs "Coffee") 100).overAmount = 50 := by
  have hspend : getCategorySpending c6Txs "Coffee" = 150 := by
    norm_num [getCategorySpending, c6Txs, jsAbs]
  refine ⟨hspend, ?_, ?_, ?_⟩
  · rw [(claim_c6_budget c6Txs "Coffee" 100 (by norm_num)).1, hspend]
    norm_num [jsRound]
  · exact ((claim_c6_budget c6Txs "Coffee" 100 (by norm_num)).2.1).mpr
      (by rw [hspend]; norm_num)
  · show getCategorySpending c6Txs "Coffee" - 100 = 50
    rw [hspend]
    norm_num

/-- C10. `addManualExpense` rejects a non-finite parsed amount before any
mutation; for every finite parsed amount `q` (zero and positive included)
it inserts exactly one transaction, whose amount is the sign-forced
`-|q| ≤ 0`, on the remote-success, remote-failure and not-configured paths
alike. -/
theorem claim_c10_manual_amount (parsed : JsNum) (desc : String)
    (categoryId : Option String) (mdate : ℤ) (remote : ManualRemote)
    (prev : List Transaction) :
    (parsed = JsNum.nonFinite →
      addManualExpense parsed desc categoryId mdate remote prev = prev) ∧
    (∀ q : ℚ, parsed = JsNum.fin q →
      ∃ tx ∈ addManualExpense parsed desc categoryId mdate remote prev,
        tx.amount = -|q| ∧ tx.amount ≤ 0 ∧
        List.Perm (addManualExpense parsed desc categoryId mdate remote prev)
          (tx :: prev)) := by
  constructor
  · intro h
    subst h
    rfl
  · intro q h
    subst h
    cases remote with
    | success rid =>
      refine ⟨_, mem_sortDesc.mpr (List.mem_cons_self _ _), ?_, ?_, sortDesc_perm _⟩
      · show -jsAbs q = -|q|
        rw [jsAbs_eq_abs]
      · exact neg_jsAbs_nonpos q
    | failure nowMs =>
      refine ⟨_, mem_sortDesc.mpr (List.mem_cons_self _ _), ?_, ?_, sortDesc_perm _⟩
      · show -jsAbs q = -|q|
        rw [jsAbs_eq_abs]
      · exact neg_jsAbs_nonpos q
    | notConfigured nowMs =>
      refine ⟨_, mem_sortDesc.mpr (List.mem_cons_self _ _), ?_, ?_, sortDesc_perm _⟩
      · show -jsAbs q = -|q|
        rw [jsAbs_eq_abs]
      · exact neg_jsAbs_nonpos q

/-- C10 witness: a parsed amount of 0 is accepted and stored as amount 0
(not positive), and a non-finite parse leaves the ledger unchanged. -/
theorem claim_c10_witness :
    (∃ tx ∈ addManualExpense (JsNum.fin 0) "Lunch" none 3 (ManualRemote.failure 9) [],
      tx.amount = 0 ∧ tx.amount ≤ 0) ∧
    addManualExpense JsNum.nonFinite "x" none 3 (ManualRemote.failure 9) [] = [] := by
  obtain ⟨tx, htx, h1, h2, h3⟩ :=
    (claim_c10_manual_amount (JsNum.fin 0) "Lunch" none 3 (ManualRemote.failure 9) []).2
      0 rfl
  refine ⟨⟨tx, htx, ?_, h2⟩, ?_⟩
  · rw [h1]
    norm_num
  · exact (claim_c10_manual_amount JsNum.nonFinite "x" none 3
      (ManualRemote.failure 9) []).1 rfl

theorem mem_enumFrom_of_mem {α : Type _} {a : α} :
    ∀ (l : List α) (n : ℕ), a ∈ l → ∃ i, (i, a) ∈ l.enumFrom n
  | b :: bs, n, h => by
    rcases List.mem_cons.mp h with rfl | h'
    · exact ⟨n, List.mem_cons_self _ _⟩
    · obtain ⟨i, hi⟩ := mem_enumFrom_of_mem bs (n + 1) h'
      exact ⟨i, List.mem_cons_of_mem _ hi⟩

theorem mem_enum_of_mem {α : Type _} {a : α} (l : List α) (h : a ∈ l) :
    ∃ i, (i, a) ∈ l.enum :=
  mem_enumFrom_of_mem l 0 h

/-- C7. Committing staged OCR items always empties the pending list, and
every staged item is inserted into the ledger with label equal to its
description and amount forced to `-|price| ≤ 0`, on the remote-success,
remote-failure and not-configured paths alike (on failure the same items
are inserted locally, so user input is never lost). -/
theorem claim_c7_ocr_commit (clk : ℕ → ℤ) (parseNoon : String → ℤ)
    (nowDate : ℤ) (remote : OcrRemote) (st : OcrState) :
    (addOcrExpenses clk parseNoon nowDate remote st).pendingItems = [] ∧
    ∀ item ∈ st.pendingItems,
      ∃ tx ∈ (addOcrExpenses clk parseNoon nowDate remote st).transactionsList,
        tx.label = item.description ∧ tx.amount = -|item.price| ∧ tx.amount ≤ 0 := by
  refine ⟨rfl, ?_⟩
  intro item hitem
  obtain ⟨i, hi⟩ := mem_enum_of_mem st.pendingItems hitem
  cases remote with
  | success idf =>
    refine ⟨mkOcrSavedTx idf parseNoon nowDate i item, ?_, rfl, ?_, neg_jsAbs_nonpos _⟩
    · exact mem_sortDesc.mpr
        (List.mem_append_left _ (List.mem_map_of_mem _ hi))
    · show -jsAbs item.price = -|item.price|
      rw [jsAbs_eq_abs]
  | failure =>
    refine ⟨mkOcrLocalTx clk parseNoon nowDate i item, ?_, rfl, ?_, neg_jsAbs_nonpos _⟩
    · exact mem_sortDesc.mpr
        (List.mem_append_left _ (List.mem_map_of_mem _ hi))
    · show -jsAbs item.price = -|item.price|
      rw [jsAbs_eq_abs]
  | notConfigured =>
    refine ⟨mkOcrLocalTx clk parseNoon nowDate i item, ?_, rfl, ?_, neg_jsAbs_nonpos _⟩
    · exact mem_sortDesc.mpr
        (List.mem_append_left _ (List.mem_map_of_mem _ hi))
    · show -jsAbs item.price = -|item.price|
      rw [jsAbs_eq_abs]

/-- OCR state of the C7 witness: one staged 4.5 item, remote failing. -/
def c7St : OcrState :=
  { transactionsList := []
    pendingItems :=
      [{ id := "p1", description := "Coffee", price := 9 / 2, date := none
         category := some "food-dining", categoryIcon := some "Coffee" }] }

/-- C7 witness (spec scenario 5): the staged 4.5 "Coffee" item is committed
as a ledger entry of amount `-4.5` even though the remote insert failed,
and the pending list ends empty. -/
theorem claim_c7_witness :
    (addOcrExpenses (fun _ => 1000) (fun _ => 0) 77 OcrRemote.failure c7St).pendingItems = [] ∧
    ∃ tx ∈ (addOcrExpenses (fun _ => 1000) (fun _ => 0) 77
        OcrRemote.failure c7St).transactionsList,
      tx.label = "Coffee" ∧ tx.amount = -(9 / 2) := by
  obtain ⟨tx, htx, h1, h2, h3⟩ :=
    (claim_c7_ocr_commit (fun _ => 1000) (fun _ => 0) 77 OcrRemote.failure c7St).2
      _ (List.mem_cons_self _ _)
  refine ⟨(claim_c7_ocr_commit (fun _ => 1000) (fun _ => 0) 77 OcrRemote.failure c7St).1,
    tx, htx, h1, ?_⟩
  rw [h2]
  norm_num

theorem typeHas_some (row : MpRow) (t : String) (h : row.type = some t)
    (kw : String) : typeHas row kw = strContains t kw := by
  unfold typeHas
  rw [h]

theorem subjHas_none (row : MpRow) (h : row.email_subject = none)
    (kw : String) : subjHas row kw = false := by
  unfold subjHas
  rw [h]

theorem mapMp_amount_eq (row : MpRow) :
    (mapMp row).amount =
      if mpIsOutgoing row then -jsAbs row.amount else jsAbs row.amount := rfl

/-- Message row refuting C1 as stated: type `payment_received`, stored
amount `10`. -/
def c1Row : MpRow :=
  { id := "1", email_subject := none, description := some "Store", amount := 10
    type := some "payment_received", category := none, received_at := none }

/-- C1 counterexample: the claim calls `payment_received` an incoming type
mapping to a positive amount, but the keyword classifier sees the substring
`payment` and forces `-|10| = -10`. -/
theorem claim_c1_counterexample :
    (mapMp c1Row).amount = -10 ∧ ¬(0 < (mapMp c1Row).amount) := by decide

/-- C1 amended. The mapped amount ignores the stored sign: forced to
`-|stored|` when the row classifies as outgoing (type contains `sent`,
`payment` or `withdrawal`, or the lower-cased subject contains `enviada` or
`pagaste`) and to `+|stored|` otherwise. In particular `payment_sent` maps
to `-|stored|`, and `deposit` and `refund_received` (without an outgoing
subject keyword) map to `+|stored|`; but `payment_received` contains the
keyword `payment`, classifies as outgoing, and also maps to `-|stored|`. -/
theorem claim_c1_amended_sign_forced (row : MpRow) :
    (mpIsOutgoing row = true → (mapMp row).amount = -|row.amount|) ∧
    (mpIsOutgoing row = false → (mapMp row).amount = |row.amount|) ∧
    (row.type = some "payment_sent" → (mapMp row).amount = -|row.amount|) ∧
    (row.type = some "payment_received" → (mapMp row).amount = -|row.amount|) ∧
    (row.type = some "deposit" → row.email_subject = none →
      (mapMp row).amount = |row.amount|) ∧
    (row.type = some "refund_received" → row.email_subject = none →
      (mapMp row).amount = |row.amount|) := by
  have hout : mpIsOutgoing row = true → (mapMp row).amount = -|row.amount| := by
    intro h
    rw [mapMp_amount_eq, h, if_pos rfl, jsAbs_eq_abs]
  have hin : mpIsOutgoing row = false → (mapMp row).amount = |row.amount| := by
    intro h
    rw [mapMp_amount_eq, h, jsAbs_eq_abs]
    simp
  refine ⟨hout, hin, ?_, ?_, ?_, ?_⟩
  · intro h
    refine hout ?_
    unfold mpIsOutgoing
    rw [typeHas_some row _ h "sent"]
    simp [show strContains "payment_sent" "sent" = true from by decide]
  · intro h
    refine hout ?_
    unfold mpIsOutgoing
    rw [typeHas_some row _ h "sent", typeHas_some row _ h "payment"]
    simp [show strContains "payment_received" "payment" = true from by decide]
  · intro h hs
    refine hin ?_
    unfold mpIsOutgoing
    rw [typeHas_some row _ h "sent", typeHas_some row _ h "payment",
      typeHas_some row _ h "withdrawal", subjHas_none row hs "enviada",
      subjHas_none row hs "pagaste"]
    decide
  · intro h hs
    refine hin ?_
    unfold mpIsOutgoing
    rw [typeHas_some row _ h "sent", typeHas_some row _ h "payment",
      typeHas_some row _ h "withdrawal", subjHas_none row hs "enviada",
      subjHas_none row hs "pagaste"]
    decide

/-- Message row of the C1 witness, outgoing case (spec scenario 1). -/
def c1RowSent : MpRow :=
  { id := "1", email_subject := none, description := some "Cafe", amount := 10
    type := some "payment_sent", category := none, received_at := none }

/-- Message row of the C1 witness, incoming case. -/
def c1RowDeposit : MpRow :=
  { id := "2", email_subject := none, description := none, amount := 7
    type := some "deposit", category := none, received_at := none }

/-- C1 witness: a stored-positive `payment_sent` of 10 maps to `-10`, and a
`deposit` of 7 maps to `+7`. -/
theorem claim_c1_amended_witness :
    (mapMp c1RowSent).amount = -10 ∧ (mapMp c1RowDeposit).amount = 7 := by
  constructor
  · rw [(claim_c1_amended_sign_forced c1RowSent).2.2.1 rfl]
    norm_num [c1RowSent]
  · rw [(claim_c1_amended_sign_forced c1RowDeposit).2.2.2.2.1 rfl rfl]
    norm_num [c1RowDeposit]

/-- Staged items exhibiting the C2 id collision: two receipt lines with the
same description committed in the same millisecond. -/
def c2Items : List PendingItem :=
  [{ id := "a", description := "Coffee", price := 2, date := none
     category := none, categoryIcon := none },
   { id := "b", description := "Coffee", price := 3, date := none
     category := none, categoryIcon := none }]

/-- C2 failing input: committing two staged items that share a description
over the local-fallback path (remote failure, `Date.now()` returning 1 for
both) yields two ledger entries with the identical id `"1-Coffee"`, so the
id-uniqueness invariant is violated by the code. -/
theorem claim_c2_duplicate_ids :
    ((addOcrExpenses (fun _ => 1) (fun _ => 0) 77 OcrRemote.failure
        { transactionsList := [], pendingItems := c2Items }).transactionsList.map
      (fun t => t.id)) = ["1-Coffee", "1-Coffee"] ∧
    ¬((addOcrExpenses (fun _ => 1) (fun _ => 0) 77 OcrRemote.failure
        { transactionsList := [], pendingItems := c2Items }).transactionsList.map
      (fun t => t.id)).Nodup := by decide

theorem foldl_bucketUpd (dow : ℤ → Fin 7) :
    ∀ (l : List Transaction) (m : Fin 7 → ℚ × ℕ) (i : Fin 7),
      (l.foldl (bucketUpd dow) m) i =
        ((m i).1 + ((l.filter (inBucket dow i)).map (fun t => jsAbs t.amount)).sum,
          (m i).2 + (l.filter (inBucket dow i)).length) := by
  intro l
  induction l with
  | nil => intro m i; simp
  | cons t ts ih =>
    intro m i
    rw [List.foldl_cons, ih]
    cases h : t.date with
    | none =>
      simp [bucketUpd, inBucket, h]
    | some d =>
      rcases eq_or_ne i (dow d) with hd | hd
      · subst hd
        simp [bucketUpd, inBucket, h, List.filter_cons, add_assoc, add_comm,
          add_left_comm]
      · simp [bucketUpd, inBucket, h, List.filter_cons, hd, Ne.symm hd]

/-- C9. `getDayOfWeekPatterns` always returns exactly 7 entries carrying
`dayIndex` 0 (Sunday) through 6 (Saturday); for every slot the count is the
number of dated, negative-amount transactions falling on that local weekday
(so only those are bucketed, and the count is a natural number, hence
nonnegative), the total is their summed absolute amount, and an empty slot
reports total 0 and mean 0. -/
theorem claim_c9_day_patterns (dow : ℤ → Fin 7) (txs : List Transaction) :
    (getDayOfWeekPatterns dow txs).length = 7 ∧
    (getDayOfWeekPatterns dow txs).map (fun e => e.dayIndex) =
      [0, 1, 2, 3, 4, 5, 6] ∧
    ∀ i : Fin 7, ∃ e ∈ getDayOfWeekPatterns dow txs,
      e.dayIndex = i.val ∧
      e.totalAmount =
        (((txs.filter (fun t => decide (t.amount < 0) && t.date.isSome)).filter
            (inBucket dow i)).map (fun t => |t.amount|)).sum ∧
      e.transactionCount =
        ((txs.filter (fun t => decide (t.amount < 0) && t.date.isSome)).filter
          (inBucket dow i)).length ∧
      (e.transactionCount = 0 → e.totalAmount = 0 ∧ e.averageAmount = 0) := by
  refine ⟨?_, rfl, ?_⟩
  · simp [getDayOfWeekPatterns]
  · intro i
    have hfold := foldl_bucketUpd dow
      (txs.filter (fun t => decide (t.amount < 0) && t.date.isSome))
      (fun _ => (0, 0)) i
    simp only [zero_add] at hfold
    simp only [getDayOfWeekPatterns]
    refine ⟨_, List.mem_map_of_mem _ (List.mem_finRange i), rfl, ?_, ?_, ?_⟩
    · show ((txs.filter (fun t => decide (t.amount < 0) && t.date.isSome)).foldl
          (bucketUpd dow) (fun _ => (0, 0)) i).1 = _
      rw [hfold]
      simp [jsAbs_eq_abs]
    · show ((txs.filter (fun t => decide (t.amount < 0) && t.date.isSome)).foldl
          (bucketUpd dow) (fun _ => (0, 0)) i).2 = _
      rw [hfold]
    · intro hc
      have hc' : ((txs.filter (fun t => decide (t.amount < 0) && t.date.isSome)).filter
          (inBucket dow i)).length = 0 := by
        have : ((txs.filter (fun t => decide (t.amount < 0) && t.date.isSome)).foldl
            (bucketUpd dow) (fun _ => (0, 0)) i).2 = 0 := hc
        rw [hfold] at this
        exact this
      have hnil := List.length_eq_zero.mp hc'
      constructor
      · show ((txs.filter (fun t => decide (t.amount < 0) && t.date.isSome)).foldl
            (bucketUpd dow) (fun _ => (0, 0)) i).1 = 0
        rw [hfold, hnil]
        simp
      · show (if 0 < ((txs.filter (fun t => decide (t.amount < 0) && t.date.isSome)).foldl
            (bucketUpd dow) (fun _ => (0, 0)) i).2 then _ else 0) = 0
        rw [hfold, hnil]
        simp

/-- C9 witness: on the empty ledger every slot exists and is zero-filled;
slot 4 (Thursday) shown explicitly. -/
theorem claim_c9_witness :
    (getDayOfWeekPatterns (fun _ => (3 : Fin 7)) []).length = 7 ∧
    ∃ e ∈ getDayOfWeekPatterns (fun _ => (3 : Fin 7)) [],
      e.dayIndex = 4 ∧ e.transactionCount = 0 ∧ e.totalAmount = 0 ∧
      e.averageAmount = 0 := by
  obtain ⟨e, he, h1, h2, h3, h4⟩ :=
    (claim_c9_day_patterns (fun _ => (3 : Fin 7)) []).2.2 4
  have hc : e.transactionCount = 0 := by rw [h3]; rfl
  obtain ⟨ht0, ha0⟩ := h4 hc
  exact ⟨(claim_c9_day_patterns (fun _ => (3 : Fin 7)) []).1, e, he, h1, hc, ht0, ha0⟩

/-- Lookup of the merchant entry for name `n`, defaulting to the fresh zero
entry (mirrors `merchantMap[name]` with the create-if-absent step). -/
def getEntry (n : String) : List MerchantData → MerchantData
  | [] => blankMd n
  | m :: ms => if m.name = n then m else getEntry n ms

theorem mdUpdate_name (m : MerchantData) (t : Transaction) :
    (mdUpdate m t).name = m.name := rfl

theorem getEntry_insertMerchant (t : Transaction) (n : String) :
    ∀ acc, getEntry n (insertMerchant acc t) =
      if keyOf t = n then mdUpdate (getEntry n acc) t else getEntry n acc := by
  intro acc
  induction acc with
  | nil =>
    by_cases h : keyOf t = n
    · simp [insertMerchant, getEntry, h, mdUpdate_name, blankMd]
    · simp [insertMerchant, getEntry, h, mdUpdate_name, blankMd]
  | cons m ms ih =>
    by_cases hm : m.name = keyOf t
    · by_cases h : keyOf t = n
      · simp [insertMerchant, getEntry, hm, h, mdUpdate_name]
      · have hmn : m.name ≠ n := fun hn => h (hm.symm.trans hn)
        simp [insertMerchant, getEntry, hm, h, hmn, mdUpdate_name]
    · by_cases hn : m.name = n
      · have hk : keyOf t ≠ n := fun hkn => hm (hn.trans hkn.symm)
        simp [insertMerchant, getEntry, hm, hn, hk, Ne.symm hk]
      · simp [insertMerchant, getEntry, hm, hn, ih]

theorem getEntry_foldl (n : String) :
    ∀ (l : List Transaction) (acc : List MerchantData),
      getEntry n (l.foldl insertMerchant acc) =
        (l.filter (fun t => keyOf t == n)).foldl mdUpdate (getEntry n acc) := by
  intro l
  induction l with
  | nil => intro acc; rfl
  | cons t ts ih =>
    intro acc
    rw [List.foldl_cons, ih, getEntry_insertMerchant]
    by_cases h : keyOf t = n
    · simp [List.filter_cons, h]
    · simp [List.filter_cons, h]

theorem foldl_mdUpdate_total :
    ∀ (ts : List Transaction) (m : MerchantData),
      (ts.foldl mdUpdate m).totalAmount =
        m.totalAmount + (ts.map (fun t => jsAbs t.amount)).sum := by
  intro ts
  induction ts with
  | nil => intro m; simp
  | cons t ts ih =>
    intro m
    rw [List.foldl_cons, ih]
    simp [mdUpdate, add_assoc]

theorem foldl_mdUpdate_count :
    ∀ (ts : List Transaction) (m : MerchantData),
      (ts.foldl mdUpdate m).transactionCount = m.transactionCount + ts.length := by
  intro ts
  induction ts with
  | nil => intro m; simp
  | cons t ts ih =>
    intro m
    rw [List.foldl_cons, ih]
    simp [mdUpdate]
    omega

theorem foldl_mdUpdate_last :
    ∀ (ts : List Transaction) (m : MerchantData),
      (ts.foldl mdUpdate m).lastTransaction =
        maxFrom m.lastTransaction (ts.filterMap (fun t => t.date)) := by
  intro ts
  induction ts with
  | nil => intro m; rfl
  | cons t ts ih =>
    intro m
    rw [List.foldl_cons, ih]
    cases h : t.date with
    | none =>
      have hstep : (mdUpdate m t).lastTransaction = m.lastTransaction := by
        cases hm : m.lastTransaction <;> simp [mdUpdate, h, hm]
      rw [hstep]
      simp [List.filterMap_cons, h]
    | some x =>
      have hstep : (mdUpdate m t).lastTransaction =
          (match m.lastTransaction with
            | none => some x
            | some v => some (max v x)) := by
        cases hm : m.lastTransaction with
        | none => simp [mdUpdate, h, hm]
        | some a =>
          simp only [mdUpdate, h, hm]
          rcases le_or_lt x a with hax | hax
          · rw [if_neg (not_lt.mpr hax), max_eq_left hax]
          · rw [if_pos hax, max_eq_right hax.le]
      rw [hstep]
      simp only [List.filterMap_cons, h, maxFrom, List.foldl_cons]

/-- Names of the merchant entries, in insertion order. -/
def mNames (ms : List MerchantData) : List String := ms.map (fun m => m.name)

theorem mNames_insertMerchant (t : Transaction) :
    ∀ acc, mNames (insertMerchant acc t) =
      if keyOf t ∈ mNames acc then mNames acc else mNames acc ++ [keyOf t] := by
  intro acc
  induction acc with
  | nil => simp [insertMerchant, mNames, mdUpdate, blankMd]
  | cons m ms ih =>
    by_cases hm : m.name = keyOf t
    · have hcons : insertMerchant (m :: ms) t = mdUpdate m t :: ms := by
        simp [insertMerchant, hm]
      have h2 : mNames (mdUpdate m t :: ms) = m.name :: mNames ms := rfl
      have h3 : mNames (m :: ms) = m.name :: mNames ms := rfl
      rw [hcons, h2, h3, if_pos (by rw [← hm]; exact List.mem_cons_self _ _)]
    · have hcons : insertMerchant (m :: ms) t = m :: insertMerchant ms t := by
        simp [insertMerchant, hm]
      have h2 : mNames (m :: insertMerchant ms t) =
          m.name :: mNames (insertMerchant ms t) := rfl
      have h3 : mNames (m :: ms) = m.name :: mNames ms := rfl
      rw [hcons, h2, ih, h3]
      have hm' : keyOf t ≠ m.name := fun hkm => hm hkm.symm
      by_cases hmem : keyOf t ∈ mNames ms
      · rw [if_pos hmem, if_pos (List.mem_cons_of_mem _ hmem)]
      · rw [if_neg hmem, if_neg (by simp [hm', hmem]), List.cons_append]

theorem nodup_mNames_foldl :
    ∀ (l : List Transaction) (acc : List MerchantData),
      (mNames acc).Nodup → (mNames (l.foldl insertMerchant acc)).Nodup := by
  intro l
  induction l with
  | nil => intro acc h; exact h
  | cons t ts ih =>
    intro acc h
    rw [List.foldl_cons]
    refine ih _ ?_
    rw [mNames_insertMerchant]
    by_cases hmem : keyOf t ∈ mNames acc
    · rw [if_pos hmem]
      exact h
    · rw [if_neg hmem]
      simp [List.nodup_append, h, hmem]

theorem getEntry_of_mem :
    ∀ (ms : List MerchantData), (mNames ms).Nodup →
      ∀ e ∈ ms, getEntry e.name ms = e := by
  intro ms
  induction ms with
  | nil => intro _ e he; cases he
  | cons m ms ih =>
    intro hnd e he
    simp only [mNames, List.map_cons] at hnd
    have hnd' := List.nodup_cons.mp hnd
    rcases List.mem_cons.mp he with rfl | he'
    · simp [getEntry]
    · have hname : e.name ∈ ms.map (fun m => m.name) := List.mem_map_of_mem _ he'
      have hm : m.name ≠ e.name := fun hEq => hnd'.1 (hEq ▸ hname)
      simp only [getEntry]
      rw [if_neg hm]
      exact ih hnd'.2 e he'

/-- C8. `getTopMerchants` returns at most `limit` entries, sorted
non-increasing by aggregate amount (`merchGE a b ↔ b.totalAmount ≤
a.totalAmount`); each returned entry aggregates exactly the negative-amount
transactions whose trimmed label equals its name under string equality:
summed absolute amount, count, and most recent date. -/
theorem claim_c8_top_merchants (txs : List Transaction) (limit : ℕ) :
    (∀ a b : MerchantData, merchGE a b ↔ b.totalAmount ≤ a.totalAmount) ∧
    (getTopMerchants txs limit).length ≤ limit ∧
    List.Sorted merchGE (getTopMerchants txs limit) ∧
    ∀ e ∈ getTopMerchants txs limit,
      e.totalAmount =
        (((txs.filter (fun t => decide (t.amount < 0))).filter
            (fun t => keyOf t == e.name)).map (fun t => |t.amount|)).sum ∧
      e.transactionCount =
        ((txs.filter (fun t => decide (t.amount < 0))).filter
          (fun t => keyOf t == e.name)).length ∧
      e.lastTransaction =
        maxTime? (((txs.filter (fun t => decide (t.amount < 0))).filter
            (fun t => keyOf t == e.name)).filterMap (fun t => t.date)) := by
  refine ⟨fun a b => Iff.rfl, ?_, ?_, ?_⟩
  · exact List.length_take_le _ _
  · exact List.Pairwise.sublist (List.take_sublist _ _)
      (List.sorted_insertionSort merchGE _)
  · intro e he
    have hmem : e ∈ (txs.filter (fun t => decide (t.amount < 0))).foldl
        insertMerchant [] :=
      ((List.perm_insertionSort merchGE _).mem_iff).mp (List.take_subset _ _ he)
    have hnd : (mNames ((txs.filter (fun t => decide (t.amount < 0))).foldl
        insertMerchant [])).Nodup :=
      nodup_mNames_foldl _ [] (by simp [mNames])
    have he' := getEntry_of_mem _ hnd e hmem
    have hfold := getEntry_foldl e.name (txs.filter (fun t => decide (t.amount < 0))) []
    have heq : e = ((txs.filter (fun t => decide (t.amount < 0))).filter
        (fun t => keyOf t == e.name)).foldl mdUpdate (blankMd e.name) :=
      he'.symm.trans hfold
    refine ⟨?_, ?_, ?_⟩
    · have h := congrArg MerchantData.totalAmount heq
      rw [foldl_mdUpdate_total] at h
      simpa [blankMd, jsAbs_eq_abs] using h
    · have h := congrArg MerchantData.transactionCount heq
      rw [foldl_mdUpdate_count] at h
      simpa [blankMd] using h
    · have h := congrArg MerchantData.lastTransaction heq
      rw [foldl_mdUpdate_last] at h
      simpa [blankMd, maxTime?] using h

/-- Transaction of the C8 witness; its label trims to `"Cafe"`. -/
def c8Tx : Transaction :=
  { id := "1", icon := "Coffee", label := " Cafe ", amount := -10
    date := some 5, source := none }

/-- Ledger of the C8 witness. -/
def c8Txs : List Transaction := [c8Tx]

/-- C8 witness: on a one-transaction ledger the single returned entry
groups under the trimmed label `"Cafe"` with aggregate 10, count 1, and
last date 5, and the result respects the `limit` bound. -/
theorem claim_c8_witness :
    (getTopMerchants c8Txs 2).length ≤ 2 ∧
    ∃ e ∈ getTopMerchants c8Txs 2,
      e.name = "Cafe" ∧ e.totalAmount = 10 ∧ e.transactionCount = 1 ∧
      e.lastTransaction = some 5 := by
  have hmem : mdUpdate (blankMd "Cafe") c8Tx ∈ getTopMerchants c8Txs 2 :=
    List.mem_cons_self _ _
  obtain ⟨h1, h2, h3⟩ := (claim_c8_top_merchants c8Txs 2).2.2.2 _ hmem
  have hfilter : (c8Txs.filter (fun t => decide (t.amount < 0))).filter
      (fun t => keyOf t == (mdUpdate (blankMd "Cafe") c8Tx).name) = [c8Tx] := rfl
  refine ⟨(claim_c8_top_merchants c8Txs 2).2.1, _, hmem, rfl, ?_, ?_, ?_⟩
  · rw [h1, hfilter]
    norm_num [c8Tx]
  · rw [h2, hfilter]
    rfl
  · rw [h3, hfilter]
    rfl

end FinanceWeb
